import Mathlib

/-!
Verification of the HR compliance backend's compliance subsystem:
the compliance status calculator (`src/utils/compliance/complianceStatus.ts`),
the compliance aggregation service (`src/services/complianceService.ts`) and
the document expiry job (`src/jobs/documentExpiryJob.ts`), shallowly embedded
in Lean.  Timestamps are modelled as `Int` milliseconds since the epoch, in a
fixed-offset reference timezone.  JavaScript `Date` values read with
`new Date()` inside a function are modelled by an explicit `now : Int`
parameter holding the instant the clock was read.
-/

/-- One day in milliseconds, the constant `1000 * 60 * 60 * 24` from the source. -/
def dayMs : Int := 1000 * 60 * 60 * 24

/-- Models `Math.ceil(a / b)` for an integer numerator and a positive integer
denominator: the mathematical ceiling of the quotient. -/
def jsCeilDiv (a b : Int) : Int := -((-a).fdiv b)

/-- Models `d.setHours(0, 0, 0, 0)`: flooring an instant to the preceding
local midnight in the fixed-offset reference timezone. -/
def startOfDay (t : Int) : Int := (t.fdiv dayMs) * dayMs

/-- Models the JavaScript expression `v || undefined` applied to a
`number | null` value: `0` is falsy and is coerced to `undefined`,
as are `null`/`undefined` themselves; every other number is kept. -/
def jsNumOrUndefined (x : Option Int) : Option Int :=
  match x with
  | none => none
  | some d => if d = 0 then none else some d

/-- Models the JavaScript truthiness test on an optional string
(`undefined`/`null` and the empty string are falsy). -/
def jsTruthyStr (s : Option String) : Bool :=
  match s with
  | none => false
  | some v => !(v == "")

/-- The three-valued traffic-light status from `complianceStatus.ts`. -/
inductive ComplianceStatus where
  | GREEN
  | YELLOW
  | RED
deriving DecidableEq, Repr

/-- Embedding of `getComplianceStatus(expiresAt?, warningDays = 30)`.
The source reads `now` from the system clock inside the function
(`const now = new Date()`); that hidden clock read is the explicit `now`
argument here.  Call sites in the repository always use the default
`warningDays = 30`, which the embedding passes explicitly. -/
def getComplianceStatus (expiresAt : Option Int) (now : Int) (warningDays : Int) :
    ComplianceStatus :=
  match expiresAt with
  | none => ComplianceStatus.GREEN
  | some e =>
    if e < now then ComplianceStatus.RED
    else if jsCeilDiv (e - now) dayMs ≤ warningDays then ComplianceStatus.YELLOW
    else ComplianceStatus.GREEN

/-- Embedding of `getDaysUntilExpiry(expiresAt?)`; as in the source, the
hidden `new Date()` read is the explicit `now` argument. -/
def getDaysUntilExpiry (expiresAt : Option Int) (now : Int) : Option Int :=
  match expiresAt with
  | none => none
  | some e => some (jsCeilDiv (e - now) dayMs)

/-- The loop of `getEmployeeComplianceStatus`: early-returns `RED`, tracks a
`hasYellow` flag, and falls through to `YELLOW`/`GREEN` at the end. -/
def employeeStatusLoop (now : Int) : List (Option Int) → Bool → ComplianceStatus
  | [], hasYellow => if hasYellow then ComplianceStatus.YELLOW else ComplianceStatus.GREEN
  | d :: rest, hasYellow =>
    match getComplianceStatus d now 30 with
    | ComplianceStatus.RED => ComplianceStatus.RED
    | ComplianceStatus.YELLOW => employeeStatusLoop now rest true
    | ComplianceStatus.GREEN => employeeStatusLoop now rest hasYellow

/-- Embedding of `getEmployeeComplianceStatus(documents)`: documents are
reduced to their `expiresAt` fields, which is all the source reads. -/
def getEmployeeComplianceStatus (documents : List (Option Int)) (now : Int) :
    ComplianceStatus :=
  if documents.isEmpty then ComplianceStatus.GREEN
  else employeeStatusLoop now documents false

/-- Status aggregation as the specification words it: `RED` if any `RED`
is present, else `YELLOW` if any `YELLOW` is present, else `GREEN`, and
`GREEN` on the empty sequence.  Spec-side definition, used to compare the
source's `getEmployeeComplianceStatus` against the spec's `worstStatus`. -/
def worstStatus (statuses : List ComplianceStatus) : ComplianceStatus :=
  if statuses.contains ComplianceStatus.RED then ComplianceStatus.RED
  else if statuses.contains ComplianceStatus.YELLOW then ComplianceStatus.YELLOW
  else ComplianceStatus.GREEN

/-- The `DocumentComplianceInfo` shape returned by `formatDocumentCompliance`. -/
structure DocumentComplianceInfo where
  documentId : String
  title : String
  status : ComplianceStatus
  expiresAt : Option Int
  daysUntilExpiry : Option Int
deriving DecidableEq, Repr

/-- Embedding of `formatDocumentCompliance(document)`.  The source writes
`daysUntilExpiry: daysUntilExpiry || undefined`, so a computed day count of
exactly `0` is coerced to `undefined`; `expiresAt: document.expiresAt ||
undefined` only turns `null` into `undefined` (a `Date` object is always
truthy), which `Option Int` already represents. -/
def formatDocumentCompliance (id title : String) (expiresAt : Option Int) (now : Int) :
    DocumentComplianceInfo :=
  { documentId := id
    title := title
    status := getComplianceStatus expiresAt now 30
    expiresAt := expiresAt
    daysUntilExpiry := jsNumOrUndefined (getDaysUntilExpiry expiresAt now) }

/-- The summary record built by `calculateComplianceSummary`. -/
structure ComplianceSummary where
  green : Nat
  yellow : Nat
  red : Nat
  total : Nat
deriving DecidableEq, Repr

/-- One step of the `employees.forEach` switch in `calculateComplianceSummary`. -/
def summaryStep (s : ComplianceSummary) (st : ComplianceStatus) : ComplianceSummary :=
  match st with
  | ComplianceStatus.GREEN => { s with green := s.green + 1 }
  | ComplianceStatus.YELLOW => { s with yellow := s.yellow + 1 }
  | ComplianceStatus.RED => { s with red := s.red + 1 }

/-- Embedding of `calculateComplianceSummary(employees)`: `total` is set to
the input length up front, then each employee's status bumps one counter. -/
def calculateComplianceSummary (employees : List ComplianceStatus) : ComplianceSummary :=
  employees.foldl summaryStep
    { green := 0, yellow := 0, red := 0, total := employees.length }

/-- The `Role` enum of the Prisma schema, as used by the service's role checks. -/
inductive Role where
  | USER
  | HR
  | ADMIN
  | SUPERADMIN
deriving DecidableEq, Repr

/-- The error taxonomy surfaced by `ComplianceService`: `AuthorizationError`,
`NotFoundError` and `InternalServerError` from `utils/error/error`. -/
inductive ServiceError where
  | authorization
  | notFound
  | internal
deriving DecidableEq, Repr

/-- The check `["HR", "ADMIN", "SUPERADMIN"].includes(requestingUserRole)`
repeated in every `ComplianceService` method. -/
def isPrivilegedRole (role : Role) : Bool :=
  match role with
  | Role.HR => true
  | Role.ADMIN => true
  | Role.SUPERADMIN => true
  | Role.USER => false

/-- An `Employee` row, restricted to the fields the compliance code reads. -/
structure Employee where
  id : String
  firstName : String
  lastName : String
  organizationId : String
  userId : Option String
  deletedAt : Option Int
deriving DecidableEq, Repr

/-- A `Document` row, restricted to the fields the compliance code reads. -/
structure Document where
  id : String
  title : String
  type : String
  expiresAt : Option Int
  employeeId : Option String
  organizationId : String
  deletedAt : Option Int
deriving DecidableEq, Repr

/-- The relational store the service queries through Prisma. -/
structure Db where
  employees : List Employee
  documents : List Document
deriving Repr

/-- Models `prisma.employee.findUnique({ where: { userId } })` from the
authorization check of `getEmployeeCompliance`: no `organizationId` and no
`deletedAt` filter is applied there. -/
def findEmployeeByUserId (db : Db) (userId : String) : Option Employee :=
  db.employees.find? (fun e => e.userId == some userId)

/-- The `documents` relation subquery `where: { deletedAt: null }` used by
`getEmployeeCompliance`: the non-deleted documents assigned to an employee. -/
def employeeDocuments (db : Db) (employeeId : String) : List Document :=
  db.documents.filter (fun d => d.employeeId == some employeeId && d.deletedAt.isNone)

/-- Models `prisma.employee.findFirst({ where: { id, organizationId,
deletedAt: null } })` from `getEmployeeCompliance`. -/
def findActiveEmployee (db : Db) (employeeId organizationId : String) : Option Employee :=
  db.employees.find?
    (fun e => e.id == employeeId && e.organizationId == organizationId && e.deletedAt.isNone)

/-- The `EmployeeComplianceInfo` shape returned by `getEmployeeCompliance`. -/
structure EmployeeComplianceInfo where
  employeeId : String
  name : String
  status : ComplianceStatus
  documents : List DocumentComplianceInfo
deriving DecidableEq, Repr

/-- The fetch-and-format phase of `ComplianceService.getEmployeeCompliance`,
entered once the role/ownership check has passed. -/
def getEmployeeComplianceAuthorized (db : Db) (employeeId organizationId : String)
    (now : Int) : Except ServiceError EmployeeComplianceInfo :=
  match findActiveEmployee db employeeId organizationId with
  | none => Except.error ServiceError.notFound
  | some emp =>
    let docs := employeeDocuments db emp.id
    Except.ok
      { employeeId := emp.id
        name := emp.firstName ++ " " ++ emp.lastName
        status := getEmployeeComplianceStatus (docs.map (fun d => d.expiresAt)) now
        documents := docs.map (fun d => formatDocumentCompliance d.id d.title d.expiresAt now) }

/-- Embedding of `ComplianceService.getEmployeeCompliance(employeeId,
organizationId, requestingUserId, requestingUserRole)`.  A non-privileged
caller must be linked (via their account's employee record) to exactly the
requested `employeeId`, else `AuthorizationError`; then the employee is
fetched scoped to the organization and non-deleted, else `NotFoundError`. -/
def getEmployeeCompliance (db : Db) (employeeId organizationId requestingUserId : String)
    (requestingUserRole : Role) (now : Int) : Except ServiceError EmployeeComplianceInfo :=
  if isPrivilegedRole requestingUserRole then
    getEmployeeComplianceAuthorized db employeeId organizationId now
  else
    match findEmployeeByUserId db requestingUserId with
    | none => Except.error ServiceError.authorization
    | some reqEmp =>
      if reqEmp.id ≠ employeeId then Except.error ServiceError.authorization
      else getEmployeeComplianceAuthorized db employeeId organizationId now

/-- The `expiresAt: { lt: now }` Prisma filter: a null `expiresAt` never
matches a comparison filter. -/
def expiredBefore (now : Int) (expiresAt : Option Int) : Bool :=
  match expiresAt with
  | none => false
  | some e => e < now

/-- The expired-documents subquery of `getCriticalComplianceIssues`:
non-deleted documents of the employee whose `expiresAt` is before `now`. -/
def expiredDocumentsOf (db : Db) (employeeId : String) (now : Int) : List Document :=
  db.documents.filter
    (fun d => d.employeeId == some employeeId && d.deletedAt.isNone && expiredBefore now d.expiresAt)

/-- One expired-document entry in a critical-issues record. -/
structure CriticalDoc where
  id : String
  title : String
  type : String
  expiresAt : Int
  daysExpired : Int
deriving DecidableEq, Repr

/-- One employee record in the `getCriticalComplianceIssues` result. -/
structure CriticalIssue where
  employeeId : String
  name : String
  expiredDocuments : List CriticalDoc
deriving DecidableEq, Repr

/-- Formats one employee's critical-issues record: `daysExpired` is
`Math.ceil((now - expiresAt) / dayMs)`; `doc.expiresAt!` (non-null
assertion, sound because the query filtered on `expiresAt < now`) is
modelled with `Option.getD`. -/
def mkCriticalIssue (db : Db) (e : Employee) (now : Int) : CriticalIssue :=
  { employeeId := e.id
    name := e.firstName ++ " " ++ e.lastName
    expiredDocuments :=
      (expiredDocumentsOf db e.id now).map (fun d =>
        { id := d.id
          title := d.title
          type := d.type
          expiresAt := d.expiresAt.getD 0
          daysExpired := jsCeilDiv (now - d.expiresAt.getD 0) dayMs }) }

/-- Embedding of `ComplianceService.getCriticalComplianceIssues`.  The
privileged branch returns every in-organization, non-deleted employee who has
at least one expired document.  The non-privileged branch requires a caller
user id, looks up the caller's own active employee record scoped to the
organization, and — exactly as the source does — throws `AuthorizationError`
("Employee record not found") when that lookup comes back empty; with a
record present it returns `[]` when no document has expired, else the
caller's single record. -/
def getCriticalComplianceIssues (db : Db) (organizationId : String) (requestingUserRole : Role)
    (requestingUserId : Option String) (now : Int) : Except ServiceError (List CriticalIssue) :=
  if isPrivilegedRole requestingUserRole then
    let emps := db.employees.filter (fun e =>
      e.organizationId == organizationId && e.deletedAt.isNone &&
        !(expiredDocumentsOf db e.id now).isEmpty)
    Except.ok (emps.map (fun e => mkCriticalIssue db e now))
  else
    match requestingUserId with
    | none => Except.error ServiceError.authorization
    | some uid =>
      match db.employees.find? (fun e =>
          e.userId == some uid && e.organizationId == organizationId && e.deletedAt.isNone) with
      | none => Except.error ServiceError.authorization
      | some emp =>
        if (expiredDocumentsOf db emp.id now).isEmpty then Except.ok []
        else Except.ok [mkCriticalIssue db emp now]

/-- The `ExpiryJobConfig` of `documentExpiryJob.ts`. -/
structure ExpiryJobConfig where
  warningDays : List Int
  cronSchedule : String
  enabled : Bool
deriving DecidableEq, Repr

/-- The configuration the exported singleton is built with: warning periods
`[30, 14, 7, 1]`, daily at 9:00, enabled outside tests. -/
def defaultExpiryJobConfig : ExpiryJobConfig :=
  { warningDays := [30, 14, 7, 1], cronSchedule := "0 9 * * *", enabled := true }

/-- Control state of a `DocumentExpiryJob` instance: whether a cron job is
scheduled (`this.cronJob && this.cronJob.running`) and how many invocations
of `executeJob` are currently in flight.  The source keeps no field at all
for the latter — nothing in the class observes it — which is exactly what the
re-entrancy claims are about. -/
structure JobState where
  cronScheduled : Bool
  activeRuns : Nat
deriving DecidableEq, Repr

/-- State before `start()` is first called. -/
def initialJobState : JobState := { cronScheduled := false, activeRuns := 0 }

/-- The externally triggerable events of the job: the `start`/`stop`
controls, a scheduled cron tick, the manual `runOnce()` trigger, and the
completion of an in-flight `executeJob` invocation. -/
inductive JobEvent where
  | start
  | stop
  | tick
  | runOnce
  | finish
deriving DecidableEq, Repr

/-- One transition of the job, read off `documentExpiryJob.ts`:
`start()` is a no-op when disabled or when a cron job is already scheduled,
else schedules one; `stop()` unschedules; a cron `tick` fires only while
scheduled and calls `executeJob` unconditionally; `runOnce()` calls
`executeJob` unconditionally; `finish` is one `executeJob` returning.
Neither entry path checks whether another run is in flight. -/
def jobStep (cfg : ExpiryJobConfig) (s : JobState) : JobEvent → JobState
  | JobEvent.start =>
    if !cfg.enabled then s
    else if s.cronScheduled then s
    else { s with cronScheduled := true }
  | JobEvent.stop => { s with cronScheduled := false }
  | JobEvent.tick =>
    if s.cronScheduled then { s with activeRuns := s.activeRuns + 1 } else s
  | JobEvent.runOnce => { s with activeRuns := s.activeRuns + 1 }
  | JobEvent.finish => { s with activeRuns := s.activeRuns - 1 }

/-- A trace of job events applied in order. -/
def jobRun (cfg : ExpiryJobConfig) (s : JobState) (events : List JobEvent) : JobState :=
  events.foldl (jobStep cfg) s

/-- Embedding of `DocumentExpiryJob.getDocumentsExpiringIn(organizationId,
daysAhead)`: `targetDate` is today plus `daysAhead` days floored to local
midnight, `nextDay` is one day later, and the query keeps the organization's
non-deleted documents with `expiresAt: { gte: targetDate, lt: nextDay }`
(a null `expiresAt` never matches the range filter). -/
def getDocumentsExpiringIn (db : Db) (organizationId : String) (daysAhead : Int)
    (now : Int) : List Document :=
  let targetDate := startOfDay (now + daysAhead * dayMs)
  let nextDay := targetDate + dayMs
  db.documents.filter (fun d =>
    d.organizationId == organizationId && d.deletedAt.isNone &&
      (match d.expiresAt with
       | some e => decide (targetDate ≤ e) && decide (e < nextDay)
       | none => false))

/-- The `user` relation included on a document's assigned employee. -/
structure FanoutUser where
  id : String
  firstName : String
  email : Option String
deriving DecidableEq, Repr

/-- The assigned-employee record included on an expiring document. -/
structure FanoutEmployee where
  id : String
  firstName : String
  lastName : String
  user : Option FanoutUser
deriving DecidableEq, Repr

/-- An expiring document as consumed by `processExpiringDocument`. -/
structure FanoutDocument where
  id : String
  title : String
  type : String
  expiresAt : Int
  employee : Option FanoutEmployee
deriving DecidableEq, Repr

/-- An active HR/ADMIN/SUPERADMIN user row as selected by the manager
fan-out query (`id`, `firstName`, `email`; `email` is a non-null column). -/
structure AdminUser where
  id : String
  firstName : String
  email : String
deriving DecidableEq, Repr

/-- The two delivery channels of the fan-out. -/
inductive Channel where
  | inApp
  | email
deriving DecidableEq, Repr

/-- Who a fan-out attempt is addressed to. -/
inductive FanTarget where
  | employee
  | admin (id : String)
deriving DecidableEq, Repr

/-- One side-effect attempt made during fan-out of a single document. -/
structure Attempt where
  target : FanTarget
  channel : Channel
  succeeded : Bool
deriving DecidableEq, Repr

/-- Outcomes of the fallible collaborator calls during one document's
fan-out: whether `createNotification` / `sendComplianceReminder` succeeds
for the employee and, per admin user id, for each manager. -/
structure FanoutEnv where
  empNotifOk : Bool
  empEmailOk : Bool
  adminNotifOk : String → Bool
  adminEmailOk : String → Bool

/-- The `for (const adminUser of adminUsers)` loop of
`processExpiringDocument`.  `createNotification` for a manager is *not*
wrapped in its own try/catch: a failure there escapes to the catch that sits
outside the loop, so the remaining managers are not attempted.  The email
send has an inner try/catch, so an email failure only skips its own counter
increment and the loop continues. -/
def adminFanout (env : FanoutEnv) : List AdminUser → Nat × Nat × List Attempt
  | [] => (0, 0, [])
  | a :: rest =>
    if env.adminNotifOk a.id then
      let emailOk := env.adminEmailOk a.id
      let tail := adminFanout env rest
      (tail.1 + 1, tail.2.1 + (if emailOk then 1 else 0),
        Attempt.mk (FanTarget.admin a.id) Channel.inApp true ::
          Attempt.mk (FanTarget.admin a.id) Channel.email emailOk :: tail.2.2)
    else
      (0, 0, [Attempt.mk (FanTarget.admin a.id) Channel.inApp false])

/-- The employee section of `processExpiringDocument`: if the document has
an assigned employee, create one in-app notification (attempted regardless
of whether the employee has a linked user), and, when the notification
succeeded and `document.employee.user?.email` is truthy, attempt one email.
A `createNotification` failure is caught by the employee-section catch, so
the email is then not attempted; an email failure is caught by its own
inner catch. -/
def employeeFanout (env : FanoutEnv) (doc : FanoutDocument) : Nat × Nat × List Attempt :=
  match doc.employee with
  | none => (0, 0, [])
  | some emp =>
    if env.empNotifOk then
      if jsTruthyStr (emp.user.bind (fun u => u.email)) then
        (1, (if env.empEmailOk then 1 else 0),
          [Attempt.mk FanTarget.employee Channel.inApp true,
           Attempt.mk FanTarget.employee Channel.email env.empEmailOk])
      else (1, 0, [Attempt.mk FanTarget.employee Channel.inApp true])
    else (0, 0, [Attempt.mk FanTarget.employee Channel.inApp false])

/-- Embedding of `DocumentExpiryJob.processExpiringDocument(document,
warningDays, organizationId)`: the employee section runs first in its own
try/catch; then, only when `warningDays <= 7`, the manager fan-out runs over
the organization's active HR/ADMIN/SUPERADMIN users (supplied here as
`admins`).  Returns the successful notification and email counts together
with the trace of attempts made. -/
def processExpiringDocument (env : FanoutEnv) (doc : FanoutDocument) (warningDays : Int)
    (admins : List AdminUser) : Nat × Nat × List Attempt :=
  let eRes := employeeFanout env doc
  let aRes := if warningDays ≤ 7 then adminFanout env admins else (0, 0, [])
  (eRes.1 + aRes.1, eRes.2.1 + aRes.2.1, eRes.2.2 ++ aRes.2.2)

theorem dayMs_pos : (0 : Int) < dayMs := by norm_num [dayMs]

theorem dayMs_val : dayMs = 86400000 := by norm_num [dayMs]

/-- The ceiling division is at most `k` exactly when the numerator is at
most `k` times the (positive) denominator. -/
theorem jsCeilDiv_le_iff (a k b : Int) (hb : 0 < b) : jsCeilDiv a b ≤ k ↔ a ≤ k * b := by
  unfold jsCeilDiv
  rw [Int.fdiv_eq_ediv _ hb.le, neg_le, Int.le_ediv_iff_mul_le hb, neg_mul]
  exact neg_le_neg_iff

/-- The ceiling division exceeds `k` exactly when the numerator exceeds `k`
times the (positive) denominator. -/
theorem lt_jsCeilDiv_iff (a k b : Int) (hb : 0 < b) : k < jsCeilDiv a b ↔ k * b < a := by
  unfold jsCeilDiv
  rw [Int.fdiv_eq_ediv _ hb.le, lt_neg, Int.ediv_lt_iff_lt_mul hb, neg_mul]
  exact neg_lt_neg_iff

theorem getComplianceStatus_some (e now w : Int) :
    getComplianceStatus (some e) now w =
      if e < now then ComplianceStatus.RED
      else if jsCeilDiv (e - now) dayMs ≤ w then ComplianceStatus.YELLOW
      else ComplianceStatus.GREEN := rfl

theorem getComplianceStatus_red_iff (e now w : Int) :
    getComplianceStatus (some e) now w = ComplianceStatus.RED ↔ e < now := by
  rw [getComplianceStatus_some]
  split_ifs with h1 h2 <;> simp [h1]

theorem getComplianceStatus_yellow_iff (e now w : Int) :
    getComplianceStatus (some e) now w = ComplianceStatus.YELLOW ↔
      (¬ e < now ∧ jsCeilDiv (e - now) dayMs ≤ w) := by
  rw [getComplianceStatus_some]
  split_ifs with h1 h2
  · simp [h1]
  · simp [h1, h2]
  · simp [h1, h2]

theorem getComplianceStatus_green_of_some_iff (e now w : Int) :
    getComplianceStatus (some e) now w = ComplianceStatus.GREEN ↔
      (¬ e < now ∧ w < jsCeilDiv (e - now) dayMs) := by
  rw [getComplianceStatus_some]
  split_ifs with h1 h2
  · simp [h1]
  · simp only [not_lt.mpr h2]
    simp [h1]
  · simp [h1, not_le.mp h2]

/-- C1: with the default 30-day warning window and a fixed clock instant,
`getComplianceStatus` is GREEN for an absent expiry; RED exactly when
`expiresAt < now`; for a non-expired document YELLOW exactly when the
ceiling day count lies between 0 and 30 inclusive (the lower bound holding
automatically) and GREEN otherwise; the boundary cases are exactly-30-days
⇒ YELLOW and exactly-31-days ⇒ GREEN; and a same-day expiry with a later
time-of-day has day count exactly 1, never zero or negative. -/
theorem C1_status_characterization (now e : Int) :
    getComplianceStatus none now 30 = ComplianceStatus.GREEN
    ∧ (getComplianceStatus (some e) now 30 = ComplianceStatus.RED ↔ e < now)
    ∧ (getComplianceStatus (some e) now 30 = ComplianceStatus.YELLOW ↔
        (now ≤ e ∧ 0 ≤ jsCeilDiv (e - now) dayMs ∧ jsCeilDiv (e - now) dayMs ≤ 30))
    ∧ (getComplianceStatus (some e) now 30 = ComplianceStatus.GREEN ↔
        (now ≤ e ∧ 30 < jsCeilDiv (e - now) dayMs))
    ∧ getComplianceStatus (some (now + 30 * dayMs)) now 30 = ComplianceStatus.YELLOW
    ∧ getComplianceStatus (some (now + 31 * dayMs)) now 30 = ComplianceStatus.GREEN
    ∧ (now < e → 1 ≤ jsCeilDiv (e - now) dayMs)
    ∧ (now < e → e - now ≤ dayMs → jsCeilDiv (e - now) dayMs = 1) := by
  have hDval := dayMs_val
  have hD := dayMs_pos
  refine ⟨rfl, getComplianceStatus_red_iff e now 30, ?_, ?_, ?_, ?_, ?_, ?_⟩
  · rw [getComplianceStatus_yellow_iff]
    constructor
    · rintro ⟨h1, h2⟩
      have h0 := (lt_jsCeilDiv_iff (e - now) (-1) dayMs hD).mpr (by omega)
      exact ⟨by omega, by omega, h2⟩
    · rintro ⟨h1, _, h3⟩
      exact ⟨by omega, h3⟩
  · rw [getComplianceStatus_green_of_some_iff]
    constructor
    · rintro ⟨h1, h2⟩
      exact ⟨by omega, h2⟩
    · rintro ⟨h1, h2⟩
      exact ⟨by omega, h2⟩
  · rw [getComplianceStatus_yellow_iff]
    refine ⟨by omega, ?_⟩
    rw [jsCeilDiv_le_iff _ _ _ hD]
    omega
  · rw [getComplianceStatus_green_of_some_iff]
    refine ⟨by omega, ?_⟩
    rw [lt_jsCeilDiv_iff _ _ _ hD]
    omega
  · intro h
    have := (lt_jsCeilDiv_iff (e - now) 0 dayMs hD).mpr (by omega)
    omega
  · intro h h2
    have hlow := (lt_jsCeilDiv_iff (e - now) 0 dayMs hD).mpr (by omega)
    have hhigh := (jsCeilDiv_le_iff (e - now) 1 dayMs hD).mpr (by omega)
    omega

/-- Concrete instance of C1: an expiry one millisecond after `now` counts
as exactly one day away. -/
theorem C1_witness : jsCeilDiv (1 - 0) dayMs = 1 :=
  (C1_status_characterization 0 1).2.2.2.2.2.2.2 (by decide) (by decide)

theorem employeeStatusLoop_eq (now : Int) (l : List (Option Int)) (flag : Bool) :
    employeeStatusLoop now l flag =
      if (l.map (fun d => getComplianceStatus d now 30)).contains ComplianceStatus.RED
      then ComplianceStatus.RED
      else if flag || (l.map (fun d => getComplianceStatus d now 30)).contains
          ComplianceStatus.YELLOW
      then ComplianceStatus.YELLOW
      else ComplianceStatus.GREEN := by
  induction l generalizing flag with
  | nil => cases flag <;> simp [employeeStatusLoop]
  | cons d rest ih =>
    cases h : getComplianceStatus d now 30 with
    | RED => simp [employeeStatusLoop, h, List.contains_cons]
    | YELLOW =>
      simp only [employeeStatusLoop, h, List.map_cons, List.contains_cons]
      rw [ih]
      by_cases hR : (rest.map (fun d => getComplianceStatus d now 30)).contains
          ComplianceStatus.RED
      · simp [hR]
      · simp [hR]
    | GREEN =>
      simp only [employeeStatusLoop, h, List.map_cons, List.contains_cons]
      rw [ih]
      simp

theorem getEmployeeComplianceStatus_eq_worst (docs : List (Option Int)) (now : Int) :
    getEmployeeComplianceStatus docs now
      = worstStatus (docs.map (fun d => getComplianceStatus d now 30)) := by
  unfold getEmployeeComplianceStatus worstStatus
  cases docs with
  | nil => simp
  | cons d rest =>
    rw [if_neg (by simp), employeeStatusLoop_eq]
    simp

theorem getEmployeeComplianceAuthorized_status (db : Db) (eid oid : String) (now : Int)
    (r : EmployeeComplianceInfo)
    (h : getEmployeeComplianceAuthorized db eid oid now = Except.ok r) :
    r.status = getEmployeeComplianceStatus
      ((employeeDocuments db eid).map (fun d => d.expiresAt)) now := by
  unfold getEmployeeComplianceAuthorized at h
  cases hf : findActiveEmployee db eid oid with
  | none => rw [hf] at h; exact Except.noConfusion h
  | some emp =>
    rw [hf] at h
    have hf' : db.employees.find?
        (fun e => e.id == eid && e.organizationId == oid && e.deletedAt.isNone) = some emp := hf
    have hp := List.find?_some hf'
    simp only [Bool.and_eq_true, beq_iff_eq, Option.isNone_iff_eq_none] at hp
    have hid : emp.id = eid := hp.1.1
    injection h with h'
    rw [← h', ← hid]

/-- C2: `getEmployeeComplianceStatus` over any document list computes the
spec's `worstStatus` (RED beats YELLOW beats GREEN) of the per-document
statuses and is GREEN on the empty list, and a successful
`getEmployeeCompliance` reports exactly that worst status over the
requested employee's non-deleted documents. -/
theorem C2_employee_worst_status (now : Int) (docs : List (Option Int)) :
    getEmployeeComplianceStatus docs now
        = worstStatus (docs.map (fun d => getComplianceStatus d now 30))
    ∧ getEmployeeComplianceStatus [] now = ComplianceStatus.GREEN
    ∧ (∀ (db : Db) (eid oid uid : String) (role : Role) (r : EmployeeComplianceInfo),
        getEmployeeCompliance db eid oid uid role now = Except.ok r →
          r.status = worstStatus ((employeeDocuments db eid).map
            (fun d => getComplianceStatus d.expiresAt now 30))) := by
  refine ⟨getEmployeeComplianceStatus_eq_worst docs now, rfl, ?_⟩
  intro db eid oid uid role r h
  have hs : r.status = getEmployeeComplianceStatus
      ((employeeDocuments db eid).map (fun d => d.expiresAt)) now := by
    unfold getEmployeeCompliance at h
    by_cases hpriv : isPrivilegedRole role = true
    · rw [if_pos hpriv] at h
      exact getEmployeeComplianceAuthorized_status db eid oid now r h
    · rw [if_neg hpriv] at h
      cases hfu : findEmployeeByUserId db uid with
      | none => rw [hfu] at h; exact Except.noConfusion h
      | some reqEmp =>
        rw [hfu] at h
        change (if reqEmp.id ≠ eid then Except.error ServiceError.authorization
          else getEmployeeComplianceAuthorized db eid oid now) = Except.ok r at h
        by_cases hne : reqEmp.id ≠ eid
        · rw [if_pos hne] at h; exact Except.noConfusion h
        · rw [if_neg hne] at h
          exact getEmployeeComplianceAuthorized_status db eid oid now r h
  rw [hs, getEmployeeComplianceStatus_eq_worst, List.map_map]
  rfl

/-- A one-employee, one-expired-document store used by concrete instances. -/
def dbW : Db :=
  { employees := [{ id := "e1", firstName := "A", lastName := "B", organizationId := "o1",
                    userId := some "u1", deletedAt := none }],
    documents := [{ id := "d1", title := "T", type := "CONTRACT",
                    expiresAt := some (-86400000), employeeId := some "e1",
                    organizationId := "o1", deletedAt := none }] }

/-- The result `getEmployeeCompliance` computes on `dbW` at instant 0. -/
def rW : EmployeeComplianceInfo :=
  { employeeId := "e1", name := "A B", status := ComplianceStatus.RED,
    documents := [{ documentId := "d1", title := "T", status := ComplianceStatus.RED,
                    expiresAt := some (-86400000), daysUntilExpiry := some (-1) }] }

/-- Concrete instance of C2: on `dbW` the reported status RED is the worst
status of the employee's single expired document. -/
theorem C2_witness :
    rW.status = worstStatus ((employeeDocuments dbW "e1").map
      (fun d => getComplianceStatus d.expiresAt 0 30)) :=
  (C2_employee_worst_status 0 []).2.2 dbW "e1" "o1" "u1" Role.HR rW rfl

theorem summaryFold_total (l : List ComplianceStatus) (acc : ComplianceSummary) :
    (l.foldl summaryStep acc).total = acc.total := by
  induction l generalizing acc with
  | nil => rfl
  | cons s rest ih => cases s <;> simp [List.foldl, summaryStep, ih]

theorem summaryFold_sum (l : List ComplianceStatus) (acc : ComplianceSummary) :
    (l.foldl summaryStep acc).green + (l.foldl summaryStep acc).yellow
        + (l.foldl summaryStep acc).red
      = acc.green + acc.yellow + acc.red + l.length := by
  induction l generalizing acc with
  | nil => simp
  | cons s rest ih =>
    cases s <;> simp [List.foldl, summaryStep, ih] <;> omega

/-- C3: `calculateComplianceSummary` always partitions its input exactly:
the three counters sum to `total`, and `total` is the input length. -/
theorem C3_summary_partition (employees : List ComplianceStatus) :
    (calculateComplianceSummary employees).green
        + (calculateComplianceSummary employees).yellow
        + (calculateComplianceSummary employees).red
      = (calculateComplianceSummary employees).total
    ∧ (calculateComplianceSummary employees).total = employees.length := by
  unfold calculateComplianceSummary
  refine ⟨?_, summaryFold_total employees _⟩
  rw [summaryFold_sum, summaryFold_total]
  simp

/-- C4 counterexample: from the initial state, two `runOnce` triggers leave
two executions in flight — `executeJob` has no guard, so the second trigger
while the first run is still RUNNING is not a no-op and a second overlapping
execution starts (a RUNNING-to-two-RUNNING transition is reachable). -/
theorem C4_counterexample :
    (jobRun defaultExpiryJobConfig initialJobState
        [JobEvent.runOnce, JobEvent.runOnce]).activeRuns = 2
    ∧ ¬ (jobRun defaultExpiryJobConfig initialJobState
        [JobEvent.runOnce, JobEvent.runOnce]).activeRuns ≤ 1
    ∧ jobStep defaultExpiryJobConfig { cronScheduled := false, activeRuns := 1 }
        JobEvent.runOnce ≠ { cronScheduled := false, activeRuns := 1 } := by
  exact ⟨rfl, by decide, by decide⟩

/-- C4 amended: the job has no re-entrancy guard — a manual `runOnce` always
starts one more execution whatever is already running, a scheduled tick does
the same whenever the cron job is scheduled, and the only overlap protection
in the class is `start()`, which is a no-op while the cron job is already
scheduled. -/
theorem C4_no_reentrancy_guard (cfg : ExpiryJobConfig) (s : JobState) :
    (jobStep cfg s JobEvent.runOnce).activeRuns = s.activeRuns + 1
    ∧ (s.cronScheduled = true → (jobStep cfg s JobEvent.tick).activeRuns = s.activeRuns + 1)
    ∧ (s.cronScheduled = true → jobStep cfg s JobEvent.start = s) := by
  refine ⟨rfl, ?_, ?_⟩ <;> intro h <;> simp [jobStep, h]

/-- Concrete instance of C4 amended: a tick while one run is in flight makes
two, and `start()` on an already-scheduled job changes nothing. -/
theorem C4_witness :
    (jobStep defaultExpiryJobConfig { cronScheduled := true, activeRuns := 1 }
        JobEvent.tick).activeRuns = 2
    ∧ jobStep defaultExpiryJobConfig { cronScheduled := true, activeRuns := 0 }
        JobEvent.start = { cronScheduled := true, activeRuns := 0 } :=
  ⟨(C4_no_reentrancy_guard defaultExpiryJobConfig
      { cronScheduled := true, activeRuns := 1 }).2.1 rfl,
   (C4_no_reentrancy_guard defaultExpiryJobConfig
      { cronScheduled := true, activeRuns := 0 }).2.2 rfl⟩

theorem windowStart_eq (now N : Int) :
    startOfDay (now + N * dayMs) = (now.fdiv dayMs + N) * dayMs := by
  unfold startOfDay
  rw [Int.fdiv_eq_ediv _ dayMs_pos.le, Int.fdiv_eq_ediv _ dayMs_pos.le,
    Int.add_mul_ediv_right _ _ (ne_of_gt dayMs_pos)]

theorem window_disjoint (now N M e : Int) (h : N ≠ M)
    (h1 : startOfDay (now + N * dayMs) ≤ e)
    (h2 : e < startOfDay (now + N * dayMs) + dayMs) :
    ¬ (startOfDay (now + M * dayMs) ≤ e ∧ e < startOfDay (now + M * dayMs) + dayMs) := by
  rw [windowStart_eq] at h1 h2
  rw [windowStart_eq]
  rintro ⟨g1, g2⟩
  rcases lt_or_gt_of_ne h with hNM | hNM
  · have hstep : (now.fdiv dayMs + N + 1) * dayMs ≤ (now.fdiv dayMs + M) * dayMs :=
      mul_le_mul_of_nonneg_right (by omega) dayMs_pos.le
    have hr : (now.fdiv dayMs + N) * dayMs + dayMs = (now.fdiv dayMs + N + 1) * dayMs := by ring
    linarith
  · have hstep : (now.fdiv dayMs + M + 1) * dayMs ≤ (now.fdiv dayMs + N) * dayMs :=
      mul_le_mul_of_nonneg_right (by omega) dayMs_pos.le
    have hr : (now.fdiv dayMs + M) * dayMs + dayMs = (now.fdiv dayMs + M + 1) * dayMs := by ring
    linarith

/-- C5: one run's query for threshold `N` selects exactly the organization's
non-deleted documents whose `expiresAt` lies in the half-open one-day window
starting at midnight of today-plus-`N`; that window's right end is midnight
of today-plus-`N+1`; and the windows of two distinct thresholds are
disjoint, so a document matches at most one threshold's window per run. -/
theorem C5_expiry_window (db : Db) (org : String) (N now : Int) (d : Document) :
    (d ∈ getDocumentsExpiringIn db org N now ↔
      d ∈ db.documents ∧ d.organizationId = org ∧ d.deletedAt = none ∧
        ∃ e, d.expiresAt = some e ∧
          startOfDay (now + N * dayMs) ≤ e ∧ e < startOfDay (now + N * dayMs) + dayMs)
    ∧ startOfDay (now + N * dayMs) + dayMs = startOfDay (now + (N + 1) * dayMs)
    ∧ (∀ M e, N ≠ M →
        startOfDay (now + N * dayMs) ≤ e → e < startOfDay (now + N * dayMs) + dayMs →
        ¬ (startOfDay (now + M * dayMs) ≤ e
            ∧ e < startOfDay (now + M * dayMs) + dayMs)) := by
  refine ⟨?_, ?_, fun M e hNM hl hr => window_disjoint now N M e hNM hl hr⟩
  · cases hx : d.expiresAt with
    | none =>
      simp [getDocumentsExpiringIn, List.mem_filter, hx]
    | some e0 =>
      simp [getDocumentsExpiringIn, List.mem_filter, hx, Bool.and_eq_true, beq_iff_eq,
        Option.isNone_iff_eq_none, decide_eq_true_eq, and_assoc]
  · rw [windowStart_eq, windowStart_eq]
    ring

/-- Concrete instance of C5: an instant inside the 7-day window is not in
the 14-day window. -/
theorem C5_witness :
    ¬ (startOfDay (0 + 14 * dayMs) ≤ 7 * dayMs + 5
        ∧ 7 * dayMs + 5 < startOfDay (0 + 14 * dayMs) + dayMs) :=
  (C5_expiry_window dbW "o1" 7 0
      { id := "d1", title := "T", type := "CONTRACT", expiresAt := some 0,
        employeeId := none, organizationId := "o1", deletedAt := none }).2.2
    14 (7 * dayMs + 5) (by decide) (by decide) (by decide)

theorem adminFanout_env_eq (env env' : FanoutEnv)
    (hn : env.adminNotifOk = env'.adminNotifOk) (he : env.adminEmailOk = env'.adminEmailOk)
    (l : List AdminUser) : adminFanout env l = adminFanout env' l := by
  induction l with
  | nil => rfl
  | cons a rest ih => simp [adminFanout, hn, he, ih]

theorem employeeFanout_email_indep (env : FanoutEnv) (doc : FanoutDocument) (b : Bool) :
    (employeeFanout { env with empEmailOk := b } doc).1 = (employeeFanout env doc).1
    ∧ (employeeFanout { env with empEmailOk := b } doc).2.2.filter
        (fun a => a.channel == Channel.inApp)
      = (employeeFanout env doc).2.2.filter (fun a => a.channel == Channel.inApp) := by
  unfold employeeFanout
  cases doc.employee with
  | none => exact ⟨rfl, rfl⟩
  | some emp =>
    by_cases hn : env.empNotifOk <;>
      by_cases he : jsTruthyStr (emp.user.bind fun u => u.email) <;>
        simp [hn, he, List.filter, show (Channel.email == Channel.inApp) = false from rfl,
          show (Channel.inApp == Channel.inApp) = true from rfl]

theorem employeeFanout_targets (env : FanoutEnv) (doc : FanoutDocument) :
    ∀ t ∈ (employeeFanout env doc).2.2, t.target = FanTarget.employee := by
  unfold employeeFanout
  cases doc.employee with
  | none => simp
  | some emp =>
    by_cases hn : env.empNotifOk <;>
      by_cases he : jsTruthyStr (emp.user.bind fun u => u.email) <;>
        simp [hn, he]

theorem adminFanout_all_ok_mem (env : FanoutEnv) (l : List AdminUser)
    (hok : ∀ a ∈ l, env.adminNotifOk a.id = true) :
    ∀ a ∈ l, Attempt.mk (FanTarget.admin a.id) Channel.inApp true ∈ (adminFanout env l).2.2
      ∧ Attempt.mk (FanTarget.admin a.id) Channel.email (env.adminEmailOk a.id)
          ∈ (adminFanout env l).2.2 := by
  induction l with
  | nil => intro a ha; cases ha
  | cons hd rest ih =>
    intro a ha
    have hhd : env.adminNotifOk hd.id = true := hok hd (List.mem_cons_self hd rest)
    rcases List.mem_cons.mp ha with rfl | ha'
    · constructor <;> simp [adminFanout, hhd]
    · have hres := ih (fun x hx => hok x (List.mem_cons_of_mem hd hx)) a ha'
      constructor <;> simp [adminFanout, hhd, hres.1, hres.2]

theorem adminFanout_abort (env : FanoutEnv) (pre : List AdminUser) (failing : AdminUser)
    (post : List AdminUser)
    (hpre : ∀ b ∈ pre, env.adminNotifOk b.id = true)
    (hfail : env.adminNotifOk failing.id = false) :
    (adminFanout env (pre ++ failing :: post)).2.2
      = pre.flatMap (fun b => [Attempt.mk (FanTarget.admin b.id) Channel.inApp true,
          Attempt.mk (FanTarget.admin b.id) Channel.email (env.adminEmailOk b.id)])
        ++ [Attempt.mk (FanTarget.admin failing.id) Channel.inApp false] := by
  induction pre with
  | nil => simp [adminFanout, hfail]
  | cons b rest ih =>
    have hb : env.adminNotifOk b.id = true := hpre b (List.mem_cons_self b rest)
    simp [adminFanout, hb, ih (fun x hx => hpre x (List.mem_cons_of_mem b hx))]

/-- Notification/email outcome functions used by the concrete fan-out
instances: the in-app sink fails exactly for admin user id `a1`. -/
def envC : FanoutEnv :=
  { empNotifOk := true, empEmailOk := true,
    adminNotifOk := fun id => !(id == "a1"), adminEmailOk := fun _ => true }

/-- An expiring document with no assigned employee. -/
def docC : FanoutDocument :=
  { id := "dx", title := "X", type := "LICENSE", expiresAt := 604800000, employee := none }

def a1W : AdminUser := { id := "a1", firstName := "P", email := "p@x.io" }

def a2W : AdminUser := { id := "a2", firstName := "Q", email := "q@x.io" }

/-- C6 counterexample: at threshold 7 with two active managers, a
`createNotification` failure for the first manager leaves the trace with no
attempt at all addressed to the second manager — the in-app failure escapes
to the catch outside the manager loop and aborts the remaining fan-out,
contradicting the claimed per-manager isolation for both channels. -/
theorem C6_counterexample :
    (processExpiringDocument envC docC 7 [a1W, a2W]).2.2
        = [Attempt.mk (FanTarget.admin "a1") Channel.inApp false]
    ∧ ∀ t ∈ (processExpiringDocument envC docC 7 [a1W, a2W]).2.2,
        t.target ≠ FanTarget.admin "a2" :=
  ⟨rfl, by decide⟩

/-- C6 amended: per-recipient attempts are email-failure isolated — the
employee's email outcome never changes the notification count or the in-app
attempts, and when every manager's in-app notification succeeds every
manager gets one in-app and one email attempt regardless of email outcomes —
but a failure creating one manager's in-app notification aborts the fan-out
for all managers after it (the employee-side attempts are unaffected). -/
theorem C6_fanout_isolation (env : FanoutEnv) (doc : FanoutDocument) (w : Int)
    (admins : List AdminUser) :
    (∀ b : Bool,
      (processExpiringDocument { env with empEmailOk := b } doc w admins).1
          = (processExpiringDocument env doc w admins).1
      ∧ (processExpiringDocument { env with empEmailOk := b } doc w admins).2.2.filter
            (fun a => a.channel == Channel.inApp)
          = (processExpiringDocument env doc w admins).2.2.filter
            (fun a => a.channel == Channel.inApp))
    ∧ (w ≤ 7 → (∀ a ∈ admins, env.adminNotifOk a.id = true) →
        ∀ a ∈ admins,
          Attempt.mk (FanTarget.admin a.id) Channel.inApp true
              ∈ (processExpiringDocument env doc w admins).2.2
          ∧ Attempt.mk (FanTarget.admin a.id) Channel.email (env.adminEmailOk a.id)
              ∈ (processExpiringDocument env doc w admins).2.2)
    ∧ (∀ pre failing post, admins = pre ++ failing :: post →
        (∀ b ∈ pre, env.adminNotifOk b.id = true) →
        env.adminNotifOk failing.id = false →
        ∀ c ∈ post, c.id ≠ failing.id → c.id ∉ pre.map AdminUser.id →
        ∀ ch sb, Attempt.mk (FanTarget.admin c.id) ch sb
            ∉ (processExpiringDocument env doc w admins).2.2) := by
  refine ⟨?_, ?_, ?_⟩
  · intro b
    have ha : adminFanout { env with empEmailOk := b } admins = adminFanout env admins :=
      adminFanout_env_eq { env with empEmailOk := b } env rfl rfl admins
    have he := employeeFanout_email_indep env doc b
    simp only [processExpiringDocument, ha]
    exact ⟨by rw [he.1], by rw [List.filter_append, List.filter_append, he.2]⟩
  · intro hw hok a ha
    have hmem := adminFanout_all_ok_mem env admins hok a ha
    simp only [processExpiringDocument, if_pos hw]
    exact ⟨List.mem_append_right _ hmem.1, List.mem_append_right _ hmem.2⟩
  · intro pre failing post heq hpre hfail c hc hne hnot ch sb hmem
    subst heq
    simp only [processExpiringDocument] at hmem
    by_cases hw : w ≤ 7
    · rw [if_pos hw, adminFanout_abort env pre failing post hpre hfail] at hmem
      rcases List.mem_append.mp hmem with hE | hA
      · have := employeeFanout_targets env doc _ hE
        simp at this
      · rcases List.mem_append.mp hA with hB | hF
        · rcases List.mem_flatMap.mp hB with ⟨x, hx, hx2⟩
          simp only [List.mem_cons, List.not_mem_nil, or_false] at hx2
          have hid : c.id = x.id := by
            rcases hx2 with h1 | h1 <;> exact FanTarget.admin.inj (congrArg Attempt.target h1)
          exact hnot (hid ▸ List.mem_map_of_mem AdminUser.id hx)
        · simp only [List.mem_singleton] at hF
          exact hne (FanTarget.admin.inj (congrArg Attempt.target hF))
    · rw [if_neg hw] at hmem
      simp only [List.append_nil] at hmem
      have := employeeFanout_targets env doc _ hmem
      simp at this

/-- Concrete instance of C6 amended: with a single manager whose
notification succeeds, both the in-app and the email attempt occur. -/
theorem C6_witness :
    Attempt.mk (FanTarget.admin "a2") Channel.inApp true
        ∈ (processExpiringDocument envC docC 7 [a2W]).2.2
    ∧ Attempt.mk (FanTarget.admin "a2") Channel.email (envC.adminEmailOk "a2")
        ∈ (processExpiringDocument envC docC 7 [a2W]).2.2 :=
  (C6_fanout_isolation envC docC 7 [a2W]).2.1 (by decide) (by decide) a2W
    (List.mem_singleton.mpr rfl)

/-- A store with no rows at all. -/
def dbEmpty : Db := { employees := [], documents := [] }

/-- A store with one active employee linked to user `u1` and no documents. -/
def dbU : Db :=
  { employees := [{ id := "e1", firstName := "A", lastName := "B", organizationId := "o1",
                    userId := some "u1", deletedAt := none }],
    documents := [] }

/-- C7 counterexample: a non-privileged caller with no employee record gets
an `AuthorizationError` ("Employee record not found") from
`getCriticalComplianceIssues`, not the empty list the claim promises. -/
theorem C7_counterexample :
    getCriticalComplianceIssues dbEmpty "o1" Role.USER (some "u1") 0
        = Except.error ServiceError.authorization
    ∧ getCriticalComplianceIssues dbEmpty "o1" Role.USER (some "u1") 0 ≠ Except.ok [] := by
  refine ⟨rfl, ?_⟩
  intro h
  rw [show getCriticalComplianceIssues dbEmpty "o1" Role.USER (some "u1") 0
      = Except.error ServiceError.authorization from rfl] at h
  exact Except.noConfusion h

/-- C7 amended: for a non-privileged caller, `getCriticalComplianceIssues`
fails with an `AuthorizationFailure` when no caller id is supplied or when
the caller has no active employee record in the organization; when the
caller's record exists it returns the empty list if the record has zero
expired documents — never an error in that case — and the caller's own
single record exactly when at least one document has expired. -/
theorem C7_critical_issues_non_privileged (db : Db) (oid uid : String) (role : Role)
    (now : Int) (hrole : isPrivilegedRole role = false) :
    getCriticalComplianceIssues db oid role none now
        = Except.error ServiceError.authorization
    ∧ (db.employees.find? (fun e => e.userId == some uid && e.organizationId == oid
          && e.deletedAt.isNone) = none →
        getCriticalComplianceIssues db oid role (some uid) now
          = Except.error ServiceError.authorization)
    ∧ (∀ emp, db.employees.find? (fun e => e.userId == some uid && e.organizationId == oid
          && e.deletedAt.isNone) = some emp →
        (expiredDocumentsOf db emp.id now = [] →
          getCriticalComplianceIssues db oid role (some uid) now = Except.ok [])
        ∧ (expiredDocumentsOf db emp.id now ≠ [] →
          getCriticalComplianceIssues db oid role (some uid) now
              = Except.ok [mkCriticalIssue db emp now]
          ∧ (mkCriticalIssue db emp now).employeeId = emp.id)) := by
  unfold getCriticalComplianceIssues
  simp only [hrole, Bool.false_eq_true, if_false]
  refine ⟨by trivial, ?_, ?_⟩
  · intro h
    rw [h]
  · intro emp h
    rw [h]
    constructor
    · intro hempty
      show (if (expiredDocumentsOf db emp.id now).isEmpty = true then
          (Except.ok [] : Except ServiceError (List CriticalIssue))
        else Except.ok [mkCriticalIssue db emp now]) = Except.ok []
      rw [if_pos (by simp [hempty])]
    · intro hne
      refine ⟨?_, rfl⟩
      show (if (expiredDocumentsOf db emp.id now).isEmpty = true then
          (Except.ok [] : Except ServiceError (List CriticalIssue))
        else Except.ok [mkCriticalIssue db emp now]) = Except.ok [mkCriticalIssue db emp now]
      rw [if_neg (by simp [hne])]

/-- Concrete instances of C7 amended: no employee record yields the
authorization failure; an existing record with no expired documents yields
the empty list. -/
theorem C7_witness :
    getCriticalComplianceIssues dbEmpty "o1" Role.USER (some "u1") 0
        = Except.error ServiceError.authorization
    ∧ getCriticalComplianceIssues dbU "o1" Role.USER (some "u1") 0 = Except.ok [] :=
  ⟨(C7_critical_issues_non_privileged dbEmpty "o1" "u1" Role.USER 0 rfl).2.1 rfl,
   ((C7_critical_issues_non_privileged dbU "o1" "u1" Role.USER 0 rfl).2.2
      { id := "e1", firstName := "A", lastName := "B", organizationId := "o1",
        userId := some "u1", deletedAt := none } rfl).1 rfl⟩

/-- C8: a non-privileged caller gets `AuthorizationFailure` — distinguishable
from `NotFoundFailure` — whenever the requested `employeeId` is not the
employee record linked to their own account (including when they have no
linked record); requesting their own active in-organization record succeeds;
a privileged caller never gets an authorization failure, succeeds for any
active in-organization employee, and gets `NotFoundFailure` when the
requested employee is absent — in particular whenever every stored employee
with that id is soft-deleted or belongs to a different organization. -/
theorem C8_employee_compliance_access (db : Db) (eid oid uid : String) (role : Role)
    (now : Int) :
    (isPrivilegedRole role = false → findEmployeeByUserId db uid = none →
      getEmployeeCompliance db eid oid uid role now = Except.error ServiceError.authorization)
    ∧ (isPrivilegedRole role = false → ∀ reqEmp, findEmployeeByUserId db uid = some reqEmp →
        reqEmp.id ≠ eid →
        getEmployeeCompliance db eid oid uid role now = Except.error ServiceError.authorization)
    ∧ (isPrivilegedRole role = false → ∀ reqEmp, findEmployeeByUserId db uid = some reqEmp →
        reqEmp.id = eid → ∀ emp, findActiveEmployee db eid oid = some emp →
        ∃ r, getEmployeeCompliance db eid oid uid role now = Except.ok r)
    ∧ (isPrivilegedRole role = true →
        (findActiveEmployee db eid oid = none →
          getEmployeeCompliance db eid oid uid role now = Except.error ServiceError.notFound)
        ∧ (∀ emp, findActiveEmployee db eid oid = some emp →
            ∃ r, getEmployeeCompliance db eid oid uid role now = Except.ok r)
        ∧ getEmployeeCompliance db eid oid uid role now ≠ Except.error ServiceError.authorization)
    ∧ ((∀ e ∈ db.employees, e.id = eid → e.organizationId ≠ oid ∨ e.deletedAt ≠ none) →
        findActiveEmployee db eid oid = none)
    ∧ ServiceError.authorization ≠ ServiceError.notFound := by
  refine ⟨?_, ?_, ?_, ?_, ?_, by simp⟩
  · intro hrole hfind
    unfold getEmployeeCompliance
    rw [if_neg (by simp [hrole]), hfind]
  · intro hrole reqEmp hfind hne
    unfold getEmployeeCompliance
    rw [if_neg (by simp [hrole]), hfind]
    show (if reqEmp.id ≠ eid then Except.error ServiceError.authorization
      else getEmployeeComplianceAuthorized db eid oid now) = Except.error ServiceError.authorization
    rw [if_pos hne]
  · intro hrole reqEmp hfind heq emp hemp
    unfold getEmployeeCompliance
    rw [if_neg (by simp [hrole]), hfind]
    show ∃ r, (if reqEmp.id ≠ eid then Except.error ServiceError.authorization
      else getEmployeeComplianceAuthorized db eid oid now) = Except.ok r
    rw [if_neg (by simp [heq])]
    unfold getEmployeeComplianceAuthorized
    rw [hemp]
    exact ⟨_, rfl⟩
  · intro hrole
    unfold getEmployeeCompliance
    rw [if_pos hrole]
    unfold getEmployeeComplianceAuthorized
    refine ⟨?_, ?_, ?_⟩
    · intro hfind
      rw [hfind]
    · intro emp hemp
      rw [hemp]
      exact ⟨_, rfl⟩
    · cases hemp : findActiveEmployee db eid oid with
      | none => intro h; exact ServiceError.noConfusion (Except.error.inj h)
      | some emp => intro h; exact Except.noConfusion h
  · intro h
    unfold findActiveEmployee
    apply List.find?_eq_none.mpr
    intro e he hp
    simp only [Bool.and_eq_true, beq_iff_eq, Option.isNone_iff_eq_none] at hp
    rcases h e he hp.1.1 with horg | hdel
    · exact horg hp.1.2
    · exact hdel hp.2

/-- Concrete instances of C8: a non-privileged caller with no employee
record is refused with the authorization failure, and a privileged caller
asking for a missing employee gets the not-found failure. -/
theorem C8_witness :
    getEmployeeCompliance dbEmpty "e1" "o1" "u1" Role.USER 0
        = Except.error ServiceError.authorization
    ∧ getEmployeeCompliance dbEmpty "e1" "o1" "u1" Role.ADMIN 0
        = Except.error ServiceError.notFound :=
  ⟨(C8_employee_compliance_access dbEmpty "e1" "o1" "u1" Role.USER 0).1 rfl rfl,
   ((C8_employee_compliance_access dbEmpty "e1" "o1" "u1" Role.ADMIN 0).2.2.2.1 rfl).1 rfl⟩

/-- C9 counterexample: the source reads `now` from the system clock inside
`getComplianceStatus`/`getDaysUntilExpiry` (`const now = new Date()`), so
two calls with the same arguments executed at different instants can
differ: a document expiring at the epoch is RED when the clock reads 1 but
YELLOW when the clock reads -1, and its day count flips likewise. -/
theorem C9_counterexample :
    getComplianceStatus (some 0) 1 30 ≠ getComplianceStatus (some 0) (-1) 30
    ∧ getDaysUntilExpiry (some 0) 1 ≠ getDaysUntilExpiry (some 0) (-1) := by
  decide

/-- C9 amended: the calculator functions are pure and deterministic in their
arguments together with the instant the internal `new Date()` read returns —
the result depends only on `expiresAt - now` (and the warning window), and
the no-expiry case is clock-independent — but `now` is the hidden system
clock read, not an explicit parameter, so results vary with execution time. -/
theorem C9_calculator_determinism (e1 now1 e2 now2 w : Int) :
    (e1 - now1 = e2 - now2 →
      getComplianceStatus (some e1) now1 w = getComplianceStatus (some e2) now2 w
      ∧ getDaysUntilExpiry (some e1) now1 = getDaysUntilExpiry (some e2) now2)
    ∧ getComplianceStatus none now1 w = ComplianceStatus.GREEN
    ∧ getDaysUntilExpiry none now1 = none := by
  refine ⟨?_, rfl, rfl⟩
  intro h
  constructor
  · rw [getComplianceStatus_some, getComplianceStatus_some, h]
    have hlt : (e1 < now1) ↔ (e2 < now2) := by constructor <;> intro <;> omega
    exact if_congr hlt rfl rfl
  · show some (jsCeilDiv (e1 - now1) dayMs) = some (jsCeilDiv (e2 - now2) dayMs)
    rw [h]

/-- Concrete instance of C9 amended: two calls whose clock reads differ by
the same shift as their expiry arguments agree. -/
theorem C9_witness :
    getComplianceStatus (some 5) 5 30 = getComplianceStatus (some 105) 105 30
    ∧ getDaysUntilExpiry (some 5) 5 = getDaysUntilExpiry (some 105) 105 :=
  (C9_calculator_determinism 5 5 105 105 30).1 (by decide)

/-- C10: `formatDocumentCompliance` leaves `daysUntilExpiry` undefined not
only when the document has no expiry but also when the computed day count
is exactly 0 (the `|| undefined` falsiness coercion), while every negative
and positive day count is preserved. -/
theorem C10_format_zero_days_dropped (id title : String) (e : Option Int) (now : Int) :
    (e = none → (formatDocumentCompliance id title e now).daysUntilExpiry = none)
    ∧ (getDaysUntilExpiry e now = some 0 →
        (formatDocumentCompliance id title e now).daysUntilExpiry = none)
    ∧ (∀ d, getDaysUntilExpiry e now = some d → d ≠ 0 →
        (formatDocumentCompliance id title e now).daysUntilExpiry = some d) := by
  refine ⟨?_, ?_, ?_⟩
  · intro h
    subst h
    rfl
  · intro h
    simp [formatDocumentCompliance, jsNumOrUndefined, h]
  · intro d h hd
    simp [formatDocumentCompliance, jsNumOrUndefined, h, hd]

/-- Concrete instances of C10: a document expiring exactly at `now` has its
zero day count dropped; an expired document keeps its negative day count. -/
theorem C10_witness :
    (formatDocumentCompliance "d" "t" (some 0) 0).daysUntilExpiry = none
    ∧ (formatDocumentCompliance "d" "t" (some (-86400000)) 0).daysUntilExpiry = some (-1) :=
  ⟨(C10_format_zero_days_dropped "d" "t" (some 0) 0).2.1 (by decide),
   (C10_format_zero_days_dropped "d" "t" (some (-86400000)) 0).2.2 (-1) (by decide) (by decide)⟩
